import Mathlib

/-!
# Shallow embedding of the avail-light p2p client core

This file embeds the data model and operations of `src/core/src/network/p2p.rs` and
`src/core/src/network/p2p/client.rs` (a Kademlia-DHT data-availability client) as
executable Lean definitions, and proves properties of them.

Conventions:
- machine integers (`u32`, `usize`, `u64`) are modelled as `Nat`; none of the verified
  operations rely on wrap-around;
- `f64` host-memory readings are modelled as `ℚ` (only comparison is performed on them);
- fallible Rust code returns `Except`; a Rust panic (from `expect`/`unwrap`) is an explicit
  `RunOutcome.panic` outcome;
- effectful calls into libp2p (DHT GET/PUT, dialing, channels) are abstracted as oracle
  functions passed in as arguments, so each operation is a pure function of its inputs;
- types external to these two sources (`kate_recovery` references, `std::net::Ipv4Addr`
  predicates, `libp2p` record types) are modelled from their documented behavior, noted at
  each definition.
-/

namespace AvailLight

/-- Kademlia operating mode (`libp2p::kad::Mode`). -/
inductive Mode where
  | client
  | server
deriving DecidableEq, Repr

/-- Cell position in the extended matrix (`kate_recovery::matrix::Position`). -/
structure Position where
  row : Nat
  col : Nat
deriving DecidableEq, Repr

/-- Row index (`kate_recovery::matrix::RowIndex`). -/
structure RowIndex where
  val : Nat
deriving DecidableEq, Repr

/-- A matrix cell (`kate_recovery::data::Cell`). In Rust the content is `[u8; 80]`; the
fetch path checks the length explicitly before conversion, so content is modelled as a
byte list (bytes as `Nat`). -/
structure Cell where
  position : Position
  content : List Nat
deriving DecidableEq, Repr

/-- Modelled from the spec: `kate_recovery::config::COMMITMENT_SIZE + CHUNK_SIZE` is not in
these sources; the spec fixes the sum — the exact cell value size — to 80 bytes. -/
def commitmentPlusChunkSize : Nat := 80

/-- Error values (`color_eyre::Report`): a base message, possibly wrapped with context by
`wrap_err`. -/
inductive Report where
  | base (msg : String)
  | wrap (ctx : String) (err : Report)
deriving DecidableEq, Repr

/-- UTF-8 encoding of a single character, written out explicitly so that byte lists
compute by `decide`/`rfl`. -/
def utf8EncodeCharBytes (c : Char) : List Nat :=
  let n := c.toNat
  if n < 0x80 then [n]
  else if n < 0x800 then [0xC0 ||| (n >>> 6), 0x80 ||| (n &&& 0x3F)]
  else if n < 0x10000 then
    [0xE0 ||| (n >>> 12), 0x80 ||| ((n >>> 6) &&& 0x3F), 0x80 ||| (n &&& 0x3F)]
  else
    [0xF0 ||| (n >>> 18), 0x80 ||| ((n >>> 12) &&& 0x3F), 0x80 ||| ((n >>> 6) &&& 0x3F),
      0x80 ||| (n &&& 0x3F)]

/-- The UTF-8 bytes of a string (Rust `str::as_bytes`), bytes as `Nat`. -/
def utf8Bytes (s : String) : List Nat :=
  (s.data.map utf8EncodeCharBytes).flatten

/-- DHT record (`libp2p::kad::Record`). Keys and values are byte lists; the publisher is a
peer id (modelled as `Nat`); `expires` is an optional monotonic instant (seconds as `Nat`). -/
structure Record where
  key : List Nat
  value : List Nat
  publisher : Option Nat
  expires : Option Nat
deriving DecidableEq, Repr

/-- Replication requirement for a DHT query (`libp2p::kad::Quorum`). -/
inductive Quorum where
  | one
  | majority
  | all
  | n (count : Nat)
deriving DecidableEq, Repr

/-- `libp2p::kad::Record::is_expired(now)`: true iff `expires` is set and not after `now`. -/
def Record.is_expired (r : Record) (now : Nat) : Bool :=
  match r.expires with
  | some t => decide (t ≤ now)
  | none => false

/-- Per-block accounting of DHT PUT operations (`BlockStat` in `client.rs`). -/
structure BlockStat where
  total_count : Nat
  remaining_counter : Nat
  success_counter : Nat
  error_counter : Nat
  time_stat : Nat
deriving DecidableEq, Repr

/-- `BlockStat::increase_block_stat_counters`. -/
def BlockStat.increase_block_stat_counters (b : BlockStat) (cell_number : Nat) : BlockStat :=
  { b with
    total_count := b.total_count + cell_number
    remaining_counter := b.remaining_counter + cell_number }

/-- The per-block counter invariant stated by the spec:
`success_counter + error_counter + remaining_counter == total_count`. -/
def BlockStat.counterInv (b : BlockStat) : Prop :=
  b.success_counter + b.error_counter + b.remaining_counter = b.total_count

/-- The `active_blocks` update performed by `PutKadRecord::run`
(`entry(block_num).and_modify(increase).or_insert(new)`); the `HashMap<u32, BlockStat>` is
modelled as a function to `Option BlockStat`. -/
def putActiveBlocksUpdate (active_blocks : Nat → Option BlockStat) (block_num : Nat)
    (records_len : Nat) : Nat → Option BlockStat :=
  fun b =>
    if b = block_num then
      match active_blocks block_num with
      | some stat => some (stat.increase_block_stat_counters records_len)
      | none => some
          { total_count := records_len
            remaining_counter := records_len
            success_counter := 0
            error_counter := 0
            time_stat := 0 }
    else active_blocks b

/-- Outcome of a command's `run`/`abort`: normal completion, a returned error (which the
event loop forwards to the caller via `abort`), or a Rust panic raised by `expect`/`unwrap`. -/
inductive RunOutcome (α : Type) where
  | ok (value : α)
  | err (error : Report)
  | panic (msg : String)
deriving Repr

/-- The PUT loop of `PutKadRecord::run`: each Kademlia `put_record` call either yields a
query id or fails with a store error; `.expect` turns the first failure into a panic whose
message is the `expect` string. -/
def putRecordLoop (put_record : Record → Quorum → Except String Nat) (quorum : Quorum) :
    List Record → Except String (List Nat)
  | [] => .ok []
  | r :: rest =>
    match put_record r quorum with
    | .error _ => .error "Unable to perform Kademlia PUT operation."
    | .ok query_id =>
      match putRecordLoop put_record quorum rest with
      | .error msg => .error msg
      | .ok qids => .ok (query_id :: qids)

/-- `PutKadRecord::run`: first updates `active_blocks` for `block_num`, then performs one
Kademlia `put_record` per record; each returned query id is inserted into the pending map
as `QueryChannel::PutRecord` (collected here as a list). The `.expect` on `put_record`
panics on the first synchronous failure. -/
def PutKadRecord.run (put_record : Record → Quorum → Except String Nat)
    (records : List Record) (quorum : Quorum) (block_num : Nat)
    (active_blocks : Nat → Option BlockStat) :
    RunOutcome ((Nat → Option BlockStat) × List Nat) :=
  let active_blocks' := putActiveBlocksUpdate active_blocks block_num records.length
  match putRecordLoop put_record quorum records with
  | .error msg => .panic msg
  | .ok query_ids => .ok (active_blocks', query_ids)

/-- `StartListening::run`: a `listen_on` failure is propagated with `?` (no reply is sent);
otherwise the reply `Ok(())` is sent and the `.expect` on the send panics if the reply
receiver was dropped. -/
def StartListening.run (listen_on : Except Report Unit) (receiver_alive : Bool) :
    RunOutcome Unit :=
  match listen_on with
  | .error e => .err e
  | .ok _ =>
    if receiver_alive then .ok () else .panic "StartListening receiver dropped"

/-- `StartListening::abort`: sends `Err(error)` on the reply channel; the `.expect` on the
send panics if the reply receiver was dropped. -/
def StartListening.abort (_error : Report) (receiver_alive : Bool) : RunOutcome Unit :=
  if receiver_alive then .ok () else .panic "StartListening receiver dropped"

/-- `PruneExpiredRecords::run` (memory-store build): retains the non-expired records and
replies with the number of deleted records; the `.expect` on the reply send panics if the
receiver was dropped. Returns the retained store and the reply value. The unused `error`
parameter of its `abort` is dropped there without sending anything. -/
def PruneExpiredRecords.run (store : List Record) (now : Nat) (receiver_alive : Bool) :
    RunOutcome (List Record × Nat) :=
  let before := store.length
  let kept := store.filter fun r => !r.is_expired now
  let after := kept.length
  if receiver_alive then .ok (kept, before - after)
  else .panic "PruneExpiredRecords receiver dropped"

/-- `ReconfigureKademliaMode::run`, as a pure transition. The swarm's external addresses,
the host's total memory in GB (`f64`, modelled as `ℚ`) and the CPU count are inputs; in the
code the host readings are taken inside the Client branch, which is equivalent here since
the readings are inputs. Returns the new mode together with the reply
(`Ok(*entries.kad_mode)` after the update). -/
def ReconfigureKademliaMode.run (kad_mode : Mode) (external_addresses : List String)
    (memory_gb : ℚ) (cpus : Nat) (memory_gb_threshold : ℚ) (cpus_threshold : Nat) :
    Mode × Mode :=
  let new_mode :=
    if kad_mode = Mode.client ∧ external_addresses ≠ [] then
      if memory_gb > memory_gb_threshold ∧ cpus > cpus_threshold then Mode.server
      else kad_mode
    else if kad_mode = Mode.server ∧ external_addresses = [] then Mode.client
    else kad_mode
  (new_mode, new_mode)

/-- The spec's transition rules for `ReconfigureKademliaMode`, stated from the spec's words
(for comparison with the implementation): Client with an external address and both resource
thresholds exceeded switches to Server; Server with no external address switches to Client;
otherwise unchanged. -/
def specModeTransition (mode : Mode) (has_external_address : Bool) (memory_gb : ℚ)
    (cpus : Nat) (memory_gb_threshold : ℚ) (cpus_threshold : Nat) : Mode :=
  if mode = Mode.client ∧ has_external_address = true ∧ memory_gb > memory_gb_threshold
      ∧ cpus > cpus_threshold then
    Mode.server
  else if mode = Mode.server ∧ has_external_address = false then Mode.client
  else mode

/-- Externally visible operations performed by `bootstrap_on_startup`, in order. -/
inductive BootAction where
  | dial (peer : Nat) (addr : String)
  | addAddress (peer : Nat) (addr : String)
  | addAutonatServer (peer : Nat) (addr : String)
  | bootstrap
deriving DecidableEq, Repr

/-- `Client::bootstrap_on_startup`: for each `(peer, addr)` in order, `dial_peer` (whose
error is wrapped with context "Dialing Bootstrap peer failed." and aborts the sequence via
`?`), then `add_address`, then `add_autonat_server`; after all nodes, `bootstrap` is
invoked. The oracles give each operation's result; the returned list is the trace of
operations that completed successfully, in execution order. -/
def bootstrapOnStartup (dial_peer : Nat → String → Except Report Unit)
    (add_address : Nat → String → Except Report Unit)
    (add_autonat_server : Nat → String → Except Report Unit)
    (bootstrap : Except Report Unit) :
    List (Nat × String) → List BootAction × Except Report Unit
  | [] => ([BootAction.bootstrap], bootstrap)
  | (peer, addr) :: rest =>
    match dial_peer peer addr with
    | .error e => ([], .error (.wrap "Dialing Bootstrap peer failed." e))
    | .ok _ =>
      match add_address peer addr with
      | .error e => ([BootAction.dial peer addr], .error e)
      | .ok _ =>
        match add_autonat_server peer addr with
        | .error e => ([BootAction.dial peer addr, BootAction.addAddress peer addr], .error e)
        | .ok _ =>
          let tail := bootstrapOnStartup dial_peer add_address add_autonat_server bootstrap rest
          (BootAction.dial peer addr :: BootAction.addAddress peer addr ::
            BootAction.addAutonatServer peer addr :: tail.1, tail.2)

/-- The trace produced by one successfully processed bootstrap node. -/
def bootNodeTrace (node : Nat × String) : List BootAction :=
  [BootAction.dial node.1 node.2, BootAction.addAddress node.1 node.2,
    BootAction.addAutonatServer node.1 node.2]

/-- The trace produced by a list of successfully processed bootstrap nodes. -/
def bootSuccessTrace (nodes : List (Nat × String)) : List BootAction :=
  (nodes.map bootNodeTrace).flatten

/-- Rust `slice::chunks(n)`: consecutive chunks of length `n`, the last possibly shorter.
Rust panics on `n = 0`; here that case returns `[]` and is unused — every theorem below
assumes `0 < n`. -/
def chunksOf {α : Type _} (n : Nat) (l : List α) : List (List α) :=
  if hc : l.isEmpty ∨ n = 0 then []
  else l.take n :: chunksOf n (l.drop n)
termination_by l.length
decreasing_by
  simp only [List.length_drop]
  push_neg at hc
  have : 0 < l.length := List.length_pos.mpr (fun he => by simp [he] at hc)
  omega

/-- `Client::fetch_cell_from_dht`: builds the record key from the cell reference string
(the `kate_recovery` reference is the abstract `cell_ref`), performs the DHT GET
(`get_kad_record`, an oracle from record key to result), and converts the value to exactly
`COMMITMENT_SIZE + CHUNK_SIZE` bytes. Returns the optional cell together with the
debug-level log entries emitted (trace-level logging is not modelled). -/
def fetchCellFromDht (cell_ref : Nat → Position → String)
    (get_kad_record : List Nat → Except Report (List Nat)) (block_number : Nat)
    (position : Position) : Option Cell × List String :=
  let reference := cell_ref block_number position
  let record_key := utf8Bytes reference
  match get_kad_record record_key with
  | .ok value =>
    if value.length = commitmentPlusChunkSize then
      (some { position := position, content := value }, [])
    else
      (none, ["Cannot convert cell " ++ reference ++ " into 80 bytes"])
  | .error _ => (none, [])

/-- `Client::fetch_cells_from_dht`: positions are processed in chunks of
`dht_parallelization_limit`; the per-chunk results are concatenated in order, `None`
results are reported as unfetched positions (via `zip` with the inputs), fetched cells are
collected by flattening. -/
def fetchCellsFromDht (cell_ref : Nat → Position → String)
    (get_kad_record : List Nat → Except Report (List Nat))
    (dht_parallelization_limit : Nat) (block_number : Nat) (positions : List Position) :
    List Cell × List Position :=
  let cells : List (Option Cell) :=
    ((chunksOf dht_parallelization_limit positions).map fun chunk =>
      chunk.map fun position =>
        (fetchCellFromDht cell_ref get_kad_record block_number position).1).flatten
  let unfetched := ((cells.zip positions).filter fun x => x.1.isNone).map fun x => x.2
  let fetched := cells.filterMap id
  (fetched, unfetched)

/-- `Client::fetch_row_from_dht`: key from the row reference string (`row_ref`); on GET
success returns the row index together with the value, on error `None` (after a debug log,
not modelled). -/
def fetchRowFromDht (row_ref : Nat → Nat → String)
    (get_kad_record : List Nat → Except Report (List Nat)) (block_number : Nat)
    (row_index : Nat) : Option (Nat × List Nat) :=
  match get_kad_record (utf8Bytes (row_ref block_number row_index)) with
  | .ok value => some (row_index, value)
  | .error _ => none

/-- An indexed write `rows[i] = v` on a Rust `Vec`: in-bounds write, or an
index-out-of-bounds panic (modelled as `none`). -/
def vecWrite {α : Type _} (l : List α) (i : Nat) (a : α) : Option (List α) :=
  if i < l.length then some (l.set i a) else none

/-- The write loop of `fetch_rows_from_dht`: applies the fetched `(row_index, row)` pairs
in order, writing each at its index. -/
def applyFetchedRows (rows : List (Option (List Nat))) :
    List (Nat × List Nat) → Option (List (Option (List Nat)))
  | [] => some rows
  | (i, row) :: rest =>
    match vecWrite rows i (some row) with
    | some rows' => applyFetchedRows rows' rest
    | none => none

/-- The chunked driver loop of `fetch_rows_from_dht`. -/
def fetchRowsLoop (fetch : Nat → Option (Nat × List Nat)) :
    List (List Nat) → List (Option (List Nat)) → Option (List (Option (List Nat)))
  | [], rows => some rows
  | chunk :: rest, rows =>
    match applyFetchedRows rows (chunk.filterMap fetch) with
    | some rows' => fetchRowsLoop fetch rest rows'
    | none => none

/-- `Client::fetch_rows_from_dht`: starts from `vec![None; dimensions.extended_rows()]`,
fetches the requested row indexes in chunks of `dht_parallelization_limit`, and writes each
fetched row at its index (`none` = an out-of-bounds write panicked). `extended_rows` is a
plain number since `Dimensions` is external to these sources. -/
def fetchRowsFromDht (row_ref : Nat → Nat → String)
    (get_kad_record : List Nat → Except Report (List Nat))
    (dht_parallelization_limit : Nat) (block_number : Nat) (extended_rows : Nat)
    (row_indexes : List Nat) : Option (List (Option (List Nat))) :=
  fetchRowsLoop (fetchRowFromDht row_ref get_kad_record block_number)
    (chunksOf dht_parallelization_limit row_indexes)
    (List.replicate extended_rows none)

/-- Wrapper `DHTCell(Cell)` from `client.rs`. -/
structure DHTCell where
  cell : Cell

/-- Wrapper `DHTRow((RowIndex, Vec<u8>))` from `client.rs`. -/
structure DHTRow where
  row : RowIndex × List Nat

/-- `DHTCell::reference`: the cell's reference string for the block (`kate_recovery`
reference, abstract `cell_ref` over the cell's position). -/
def DHTCell.reference (cell_ref : Nat → Position → String) (c : DHTCell) (block : Nat) :
    String :=
  cell_ref block c.cell.position

/-- `DHTCell::dht_record`: key = UTF-8 bytes of the cell reference, value = content, no
publisher, expires = now + ttl (`Instant::now().checked_add(Duration::from_secs(ttl))`,
which cannot overflow over `Nat`). -/
def DHTCell.dht_record (cell_ref : Nat → Position → String) (c : DHTCell) (block : Nat)
    (ttl : Nat) (now : Nat) : Record :=
  { key := utf8Bytes (cell_ref block c.cell.position)
    value := c.cell.content
    publisher := none
    expires := some (now + ttl) }

/-- `DHTRow::reference`: the row's reference string for the block. -/
def DHTRow.reference (row_ref : Nat → Nat → String) (r : DHTRow) (block : Nat) : String :=
  row_ref block r.row.1.val

/-- `DHTRow::dht_record`: key = UTF-8 bytes of the row reference, value = the row bytes, no
publisher, expires = now + ttl. -/
def DHTRow.dht_record (row_ref : Nat → Nat → String) (r : DHTRow) (block : Nat) (ttl : Nat)
    (now : Nat) : Record :=
  { key := utf8Bytes (row_ref block r.row.1.val)
    value := r.row.2
    publisher := none
    expires := some (now + ttl) }

/-- The `PutKadRecord` command dispatched by `insert_into_dht` (its field contents). -/
structure PutKadRecordCmd where
  records : List Record
  quorum : Quorum
  block_num : Nat
deriving DecidableEq, Repr

/-- `Client::insert_into_dht`: an empty record list is an error (nothing dispatched);
otherwise a single `PutKadRecord` command with the records, `Quorum::One` and the block
number is sent. The dispatched command is returned in place of the channel send. -/
def insertIntoDht (records : List (String × Record)) (block_num : Nat) :
    Except Report PutKadRecordCmd :=
  if records.isEmpty then .error (.base "Cant send empty record list.")
  else .ok
    { records := records.map fun e => e.2
      quorum := Quorum.one
      block_num := block_num }

/-- `Client::insert_cells_into_dht`: wraps each cell in `DHTCell`, builds the
`(reference, dht_record)` pair with the configured `ttl`, and dispatches via
`insert_into_dht`. -/
def insertCellsIntoDht (cell_ref : Nat → Position → String) (ttl : Nat) (now : Nat)
    (block : Nat) (cells : List Cell) : Except Report PutKadRecordCmd :=
  let records := (cells.map DHTCell.mk).map fun c =>
    (c.reference cell_ref block, c.dht_record cell_ref block ttl now)
  insertIntoDht records block

/-- `Client::insert_rows_into_dht`: wraps each row in `DHTRow`, builds the
`(reference, dht_record)` pair with the configured `ttl`, and dispatches via
`insert_into_dht`. -/
def insertRowsIntoDht (row_ref : Nat → Nat → String) (ttl : Nat) (now : Nat) (block : Nat)
    (rows : List (RowIndex × List Nat)) : Except Report PutKadRecordCmd :=
  let records := (rows.map DHTRow.mk).map fun r =>
    (r.reference row_ref block, r.dht_record row_ref block ttl now)
  insertIntoDht records block

/-- IPv4 address as four octets (`std::net::Ipv4Addr`); octet values are `Nat`s below 256. -/
structure Ipv4Addr where
  o0 : Nat
  o1 : Nat
  o2 : Nat
  o3 : Nat
deriving DecidableEq, Repr

/-- Rust `Ipv4Addr::is_private`: 10.0.0.0/8, 172.16.0.0/12, 192.168.0.0/16. -/
def Ipv4Addr.is_private (ip : Ipv4Addr) : Bool :=
  (ip.o0 == 10) || (ip.o0 == 172 && decide (16 ≤ ip.o1) && decide (ip.o1 ≤ 31))
    || (ip.o0 == 192 && ip.o1 == 168)

/-- Rust `Ipv4Addr::is_loopback`: 127.0.0.0/8. -/
def Ipv4Addr.is_loopback (ip : Ipv4Addr) : Bool :=
  ip.o0 == 127

/-- Rust `Ipv4Addr::is_link_local`: 169.254.0.0/16. -/
def Ipv4Addr.is_link_local (ip : Ipv4Addr) : Bool :=
  ip.o0 == 169 && ip.o1 == 254

/-- Rust `Ipv4Addr::is_documentation`: 192.0.2.0/24, 198.51.100.0/24, 203.0.113.0/24. -/
def Ipv4Addr.is_documentation (ip : Ipv4Addr) : Bool :=
  (ip.o0 == 192 && ip.o1 == 0 && ip.o2 == 2)
    || (ip.o0 == 198 && ip.o1 == 51 && ip.o2 == 100)
    || (ip.o0 == 203 && ip.o1 == 0 && ip.o2 == 113)

/-- Rust `Ipv4Addr::is_broadcast`: 255.255.255.255. -/
def Ipv4Addr.is_broadcast (ip : Ipv4Addr) : Bool :=
  ip.o0 == 255 && ip.o1 == 255 && ip.o2 == 255 && ip.o3 == 255

/-- `is_global` from `p2p.rs` (the unstable `std::net` logic copied there): not globally
reachable iff first octet 0, private, loopback, link-local, in 192.0.0.0/24 except .9/.10,
documentation, or broadcast. -/
def is_global (ip : Ipv4Addr) : Bool :=
  !((ip.o0 == 0)
    || ip.is_private
    || ip.is_loopback
    || ip.is_link_local
    || (ip.o0 == 192 && ip.o1 == 0 && ip.o2 == 0 && ip.o3 != 9 && ip.o3 != 10)
    || ip.is_documentation
    || ip.is_broadcast)

/-- A multiaddr protocol component: an IPv4 component, or any other protocol. -/
inductive MultiaddrProtocol where
  | ip4 (ip : Ipv4Addr)
  | other
deriving DecidableEq, Repr

/-- `is_multiaddr_global` from `p2p.rs`: some component is an IPv4 address that is global. -/
def is_multiaddr_global (address : List MultiaddrProtocol) : Bool :=
  address.any fun p =>
    match p with
    | .ip4 ip => is_global ip
    | .other => false

/-- The address ranges the spec lists as non-global, written from the spec's words: 0/8,
10/8, 127/8, 169.254/16, 172.16/12, 192.168/16, 192.0.0/24 except .9 and .10, the
documentation ranges, and the broadcast address. -/
def specNonGlobalRanges (ip : Ipv4Addr) : Prop :=
  ip.o0 = 0 ∨ ip.o0 = 10 ∨ ip.o0 = 127
    ∨ (ip.o0 = 169 ∧ ip.o1 = 254)
    ∨ (ip.o0 = 172 ∧ 16 ≤ ip.o1 ∧ ip.o1 ≤ 31)
    ∨ (ip.o0 = 192 ∧ ip.o1 = 168)
    ∨ (ip.o0 = 192 ∧ ip.o1 = 0 ∧ ip.o2 = 0 ∧ ip.o3 ≠ 9 ∧ ip.o3 ≠ 10)
    ∨ (ip.o0 = 192 ∧ ip.o1 = 0 ∧ ip.o2 = 2)
    ∨ (ip.o0 = 198 ∧ ip.o1 = 51 ∧ ip.o2 = 100)
    ∨ (ip.o0 = 203 ∧ ip.o1 = 0 ∧ ip.o2 = 113)
    ∨ (ip.o0 = 255 ∧ ip.o1 = 255 ∧ ip.o2 = 255 ∧ ip.o3 = 255)

/-! ## Theorems -/

theorem putRecordLoop_ok (put_record : Record → Quorum → Except String Nat) (quorum : Quorum)
    (records : List Record) (h : ∀ r ∈ records, ∃ qid, put_record r quorum = .ok qid) :
    ∃ qids, putRecordLoop put_record quorum records = .ok qids := by
  induction records with
  | nil => exact ⟨[], rfl⟩
  | cons r rest ih =>
    obtain ⟨qid, hq⟩ := h r (by simp)
    obtain ⟨qids, hqs⟩ := ih fun x hx => h x (by simp [hx])
    exact ⟨qid :: qids, by simp [putRecordLoop, hq, hqs]⟩

theorem putRecordLoop_error (put_record : Record → Quorum → Except String Nat)
    (quorum : Quorum) (records : List Record) (r : Record) (e : String) (hr : r ∈ records)
    (he : put_record r quorum = .error e) :
    putRecordLoop put_record quorum records
      = .error "Unable to perform Kademlia PUT operation." := by
  induction records with
  | nil => cases hr
  | cons a rest ih =>
    cases hr' : put_record a quorum with
    | error msg => simp [putRecordLoop, hr']
    | ok qid =>
      rcases List.mem_cons.mp hr with h | h
      · subst h; rw [he] at hr'; cases hr'
      · simp [putRecordLoop, hr', ih h]

/-- C1: `ReconfigureKademliaMode::run` follows exactly the spec's transition rules — Client
with at least one external address and memory and CPU count above the thresholds becomes
Server; Server with no external address becomes Client; otherwise the mode is unchanged —
and the reply sent on the command's channel is the resulting mode. -/
theorem ReconfigureKademliaMode.run_follows_spec (kad_mode : Mode)
    (external_addresses : List String) (memory_gb : ℚ) (cpus : Nat)
    (memory_gb_threshold : ℚ) (cpus_threshold : Nat) :
    ReconfigureKademliaMode.run kad_mode external_addresses memory_gb cpus
        memory_gb_threshold cpus_threshold
      = (specModeTransition kad_mode (!external_addresses.isEmpty) memory_gb cpus
           memory_gb_threshold cpus_threshold,
         specModeTransition kad_mode (!external_addresses.isEmpty) memory_gb cpus
           memory_gb_threshold cpus_threshold) := by
  unfold ReconfigureKademliaMode.run specModeTransition
  cases kad_mode <;> cases external_addresses <;> simp

/-- C3: the `BlockStat` counter invariant `success + error + remaining = total` holds for
every entry of `active_blocks` after the `PutKadRecord::run` map update, provided it held
before; a first PUT for a block creates the entry with `total = remaining = record count`
and zero success/error counters, and a further PUT for the same block increments
`total_count` and `remaining_counter` by the new record count. -/
theorem putActiveBlocksUpdate_preserves_counterInv (active_blocks : Nat → Option BlockStat)
    (block_num records_len : Nat)
    (hinv : ∀ b s, active_blocks b = some s → s.counterInv) :
    (∀ b s, putActiveBlocksUpdate active_blocks block_num records_len b = some s →
      s.counterInv)
    ∧ (active_blocks block_num = none →
        putActiveBlocksUpdate active_blocks block_num records_len block_num
          = some { total_count := records_len, remaining_counter := records_len,
                   success_counter := 0, error_counter := 0, time_stat := 0 })
    ∧ (∀ s, active_blocks block_num = some s →
        putActiveBlocksUpdate active_blocks block_num records_len block_num
          = some (s.increase_block_stat_counters records_len)) := by
  refine ⟨?_, ?_, ?_⟩
  · intro b s hs
    by_cases hb : b = block_num
    · subst hb
      cases hm : active_blocks b with
      | some stat =>
        have hstat := hinv b stat hm
        simp [putActiveBlocksUpdate, hm] at hs
        simp [BlockStat.counterInv, BlockStat.increase_block_stat_counters, ← hs] at *
        omega
      | none =>
        simp [putActiveBlocksUpdate, hm] at hs
        simp [BlockStat.counterInv, ← hs]
    · simp [putActiveBlocksUpdate, hb] at hs
      exact hinv b s hs
  · intro hm
    simp [putActiveBlocksUpdate, hm]
  · intro s hm
    simp [putActiveBlocksUpdate, hm]

/-- Witness for C3: applying the update to an empty map creates the block entry with the
claimed counters (and hence the invariant instance `0 + 0 + 3 = 3`). -/
theorem putActiveBlocksUpdate_preserves_counterInv_w :
    putActiveBlocksUpdate (fun _ => none) 42 3 42
      = some { total_count := 3, remaining_counter := 3, success_counter := 0,
               error_counter := 0, time_stat := 0 } :=
  (putActiveBlocksUpdate_preserves_counterInv (fun _ => none) 42 3
    (fun _ _ h => nomatch h)).2.1 rfl

/-- C7: `is_global` returns false exactly on the ranges listed by the spec (0/8, 10/8,
127/8, 169.254/16, 172.16/12, 192.168/16, 192.0.0/24 except .9/.10, the documentation
ranges, and broadcast), and true outside them — in particular on 159.73.143.3. -/
theorem is_global_matches_spec_ranges (ip : Ipv4Addr) :
    (is_global ip = true ↔ ¬specNonGlobalRanges ip)
    ∧ is_global ⟨159, 73, 143, 3⟩ = true := by
  have h1 : is_global ip = false ↔ specNonGlobalRanges ip := by
    simp only [is_global, Ipv4Addr.is_private, Ipv4Addr.is_loopback,
      Ipv4Addr.is_link_local, Ipv4Addr.is_documentation, Ipv4Addr.is_broadcast,
      specNonGlobalRanges, Bool.not_eq_false', Bool.or_eq_true, Bool.and_eq_true,
      beq_iff_eq, bne_iff_ne, decide_eq_true_eq, ne_eq, or_assoc, and_assoc]
    constructor
    · rintro (h | h | h | h | h | h | h | h | h | h | h)
      · exact .inl h
      · exact .inr (.inl h)
      · exact .inr (.inr (.inr (.inr (.inl h))))
      · exact .inr (.inr (.inr (.inr (.inr (.inl h)))))
      · exact .inr (.inr (.inl h))
      · exact .inr (.inr (.inr (.inl h)))
      · exact .inr (.inr (.inr (.inr (.inr (.inr (.inl h))))))
      · exact .inr (.inr (.inr (.inr (.inr (.inr (.inr (.inl h)))))))
      · exact .inr (.inr (.inr (.inr (.inr (.inr (.inr (.inr (.inl h))))))))
      · exact .inr (.inr (.inr (.inr (.inr (.inr (.inr (.inr (.inr (.inl h)))))))))
      · exact .inr (.inr (.inr (.inr (.inr (.inr (.inr (.inr (.inr (.inr h)))))))))
    · rintro (h | h | h | h | h | h | h | h | h | h | h)
      · exact .inl h
      · exact .inr (.inl h)
      · exact .inr (.inr (.inr (.inr (.inl h))))
      · exact .inr (.inr (.inr (.inr (.inr (.inl h)))))
      · exact .inr (.inr (.inl h))
      · exact .inr (.inr (.inr (.inl h)))
      · exact .inr (.inr (.inr (.inr (.inr (.inr (.inl h))))))
      · exact .inr (.inr (.inr (.inr (.inr (.inr (.inr (.inl h)))))))
      · exact .inr (.inr (.inr (.inr (.inr (.inr (.inr (.inr (.inl h))))))))
      · exact .inr (.inr (.inr (.inr (.inr (.inr (.inr (.inr (.inr (.inl h)))))))))
      · exact .inr (.inr (.inr (.inr (.inr (.inr (.inr (.inr (.inr (.inr h)))))))))
  refine ⟨?_, by decide⟩
  rw [← h1]
  cases hg : is_global ip <;> simp

/-- C8 counterexample: a synchronous Kademlia `put_record` failure makes
`PutKadRecord::run` panic through its `.expect` (terminating the event loop), rather than
returning an error or absorbing the failure into `BlockStat.error_counter`. -/
theorem PutKadRecord.run_panics_cex :
    PutKadRecord.run (fun _ _ => .error "store error")
        [{ key := [], value := [], publisher := none, expires := none }] Quorum.one 0
        (fun _ => none)
      = .panic "Unable to perform Kademlia PUT operation." := rfl

/-- C8 (amended): when every synchronous `put_record` call succeeds, `PutKadRecord::run`
completes normally, updating `active_blocks` and registering the pending query ids; when
any `put_record` call fails, `run` panics via `.expect` — the synchronous failure is not
absorbed into `BlockStat.error_counter`. -/
theorem PutKadRecord.run_outcomes (put_record : Record → Quorum → Except String Nat)
    (records : List Record) (quorum : Quorum) (block_num : Nat)
    (active_blocks : Nat → Option BlockStat) :
    ((∀ r ∈ records, ∃ qid, put_record r quorum = .ok qid) →
      ∃ qids, PutKadRecord.run put_record records quorum block_num active_blocks
        = .ok (putActiveBlocksUpdate active_blocks block_num records.length, qids))
    ∧ ((∃ r ∈ records, ∃ e, put_record r quorum = .error e) →
      PutKadRecord.run put_record records quorum block_num active_blocks
        = .panic "Unable to perform Kademlia PUT operation.") := by
  constructor
  · intro h
    obtain ⟨qids, hqs⟩ := putRecordLoop_ok put_record quorum records h
    exact ⟨qids, by simp [PutKadRecord.run, hqs]⟩
  · rintro ⟨r, hr, e, he⟩
    simp [PutKadRecord.run, putRecordLoop_error put_record quorum records r e hr he]

/-- Witness for the amended C8: with a succeeding `put_record`, `run` completes normally. -/
theorem PutKadRecord.run_outcomes_w :
    ∃ qids, PutKadRecord.run (fun _ _ => .ok 7)
        [{ key := [1], value := [2], publisher := none, expires := none }] Quorum.one 5
        (fun _ => none)
      = .ok (putActiveBlocksUpdate (fun _ => none) 5 1, qids) :=
  (PutKadRecord.run_outcomes (fun _ _ => .ok 7)
    [{ key := [1], value := [2], publisher := none, expires := none }] Quorum.one 5
    (fun _ => none)).1 (fun _ _ => ⟨7, rfl⟩)

/-- C9 counterexample: dropping the reply receiver before `StartListening::run` sends the
reply makes the send's `.expect` panic — the send failure is not tolerated silently. -/
theorem StartListening.run_receiver_dropped_cex :
    StartListening.run (.ok ()) false = .panic "StartListening receiver dropped" := rfl

/-- C9 (amended): if the caller drops the reply receiver before the reply is sent, the
`.expect` on the send panics — on the run path and on the abort path alike — with the
command's "receiver dropped" message; with the receiver alive the commands complete
normally. -/
theorem reply_receiver_drop_behavior (e : Report) (store : List Record) (now : Nat) :
    StartListening.run (.ok ()) false = .panic "StartListening receiver dropped"
    ∧ StartListening.abort e false = .panic "StartListening receiver dropped"
    ∧ PruneExpiredRecords.run store now false = .panic "PruneExpiredRecords receiver dropped"
    ∧ StartListening.run (.ok ()) true = .ok ()
    ∧ StartListening.abort e true = .ok ()
    ∧ PruneExpiredRecords.run store now true
        = .ok (store.filter fun r => !r.is_expired now,
               store.length - (store.filter fun r => !r.is_expired now).length) :=
  ⟨rfl, rfl, rfl, rfl, rfl, rfl⟩

/-- C4: `insert_cells_into_dht` / `insert_rows_into_dht` build one record per element whose
key is the UTF-8 bytes of the element's reference string for the block and whose expiry
instant is now plus the configured ttl, and dispatch them in a single `PutKadRecord`
command with quorum One tagged with the block number; an empty input list is an error and
nothing is dispatched. -/
theorem insert_into_dht_builds_records (cell_ref : Nat → Position → String)
    (row_ref : Nat → Nat → String) (ttl now block : Nat) (cells : List Cell)
    (rows : List (RowIndex × List Nat)) (hc : cells ≠ []) (hr : rows ≠ []) :
    insertCellsIntoDht cell_ref ttl now block cells
      = .ok { records := cells.map fun c => (DHTCell.mk c).dht_record cell_ref block ttl now
              quorum := Quorum.one
              block_num := block }
    ∧ insertRowsIntoDht row_ref ttl now block rows
      = .ok { records := rows.map fun r => (DHTRow.mk r).dht_record row_ref block ttl now
              quorum := Quorum.one
              block_num := block }
    ∧ (∀ c : Cell, ((DHTCell.mk c).dht_record cell_ref block ttl now).key
          = utf8Bytes (cell_ref block c.position)
        ∧ ((DHTCell.mk c).dht_record cell_ref block ttl now).expires = some (now + ttl))
    ∧ (∀ r : RowIndex × List Nat, ((DHTRow.mk r).dht_record row_ref block ttl now).key
          = utf8Bytes (row_ref block r.1.val)
        ∧ ((DHTRow.mk r).dht_record row_ref block ttl now).expires = some (now + ttl))
    ∧ insertCellsIntoDht cell_ref ttl now block []
        = .error (.base "Cant send empty record list.")
    ∧ insertRowsIntoDht row_ref ttl now block []
        = .error (.base "Cant send empty record list.") := by
  refine ⟨?_, ?_, fun c => ⟨rfl, rfl⟩, fun r => ⟨rfl, rfl⟩, rfl, rfl⟩
  · cases cells with
    | nil => exact absurd rfl hc
    | cons c cs =>
      simp [insertCellsIntoDht, insertIntoDht, List.map_map, Function.comp]
  · cases rows with
    | nil => exact absurd rfl hr
    | cons r rs =>
      simp [insertRowsIntoDht, insertIntoDht, List.map_map, Function.comp]

/-- Witness for C4: a one-cell insert dispatches a single-record `PutKadRecord` with
quorum One. -/
theorem insert_into_dht_builds_records_w :
    insertCellsIntoDht (fun _ _ => "cell-ref") 3 5 7 [{ position := ⟨0, 0⟩, content := [1] }]
      = .ok { records := [({ position := ⟨0, 0⟩, content := [1] } : Cell)].map fun c =>
                (DHTCell.mk c).dht_record (fun _ _ => "cell-ref") 7 3 5
              quorum := Quorum.one
              block_num := 7 } :=
  (insert_into_dht_builds_records (fun _ _ => "cell-ref") (fun _ _ => "row-ref") 3 5 7
    [{ position := ⟨0, 0⟩, content := [1] }] [(⟨0⟩, [2])] (by decide) (by decide)).1

theorem bootstrapOnStartup_all_ok (dial_peer add_address add_autonat_server :
    Nat → String → Except Report Unit) (bootstrap : Except Report Unit)
    (nodes : List (Nat × String))
    (h : ∀ node ∈ nodes, dial_peer node.1 node.2 = .ok ()
      ∧ add_address node.1 node.2 = .ok () ∧ add_autonat_server node.1 node.2 = .ok ()) :
    bootstrapOnStartup dial_peer add_address add_autonat_server bootstrap nodes
      = (bootSuccessTrace nodes ++ [BootAction.bootstrap], bootstrap) := by
  induction nodes with
  | nil => simp [bootstrapOnStartup, bootSuccessTrace]
  | cons node rest ih =>
    obtain ⟨p, a⟩ := node
    obtain ⟨hd, ha, hn⟩ := h (p, a) (by simp)
    simp [bootstrapOnStartup, hd, ha, hn, ih (fun x hx => h x (by simp [hx])),
      bootSuccessTrace, bootNodeTrace]

theorem bootstrapOnStartup_dial_failure (dial_peer add_address add_autonat_server :
    Nat → String → Except Report Unit) (bootstrap : Except Report Unit)
    (pre post : List (Nat × String)) (p : Nat) (a : String) (e : Report)
    (h : ∀ node ∈ pre, dial_peer node.1 node.2 = .ok ()
      ∧ add_address node.1 node.2 = .ok () ∧ add_autonat_server node.1 node.2 = .ok ())
    (he : dial_peer p a = .error e) :
    bootstrapOnStartup dial_peer add_address add_autonat_server bootstrap
        (pre ++ (p, a) :: post)
      = (bootSuccessTrace pre, .error (.wrap "Dialing Bootstrap peer failed." e)) := by
  induction pre with
  | nil => simp [bootstrapOnStartup, he, bootSuccessTrace]
  | cons node rest ih =>
    obtain ⟨q, b⟩ := node
    obtain ⟨hd, ha, hn⟩ := h (q, b) (by simp)
    simp [bootstrapOnStartup, hd, ha, hn, ih (fun x hx => h x (by simp [hx])),
      bootSuccessTrace, bootNodeTrace]

theorem bootstrap_not_in_successTrace (nodes : List (Nat × String)) :
    BootAction.bootstrap ∉ bootSuccessTrace nodes := by
  induction nodes with
  | nil => simp [bootSuccessTrace]
  | cons node rest ih =>
    simp only [bootSuccessTrace, List.map_cons, List.flatten_cons, List.mem_append]
    rintro (hm | hm)
    · simp [bootNodeTrace] at hm
    · exact ih hm

theorem addAddress_in_successTrace (nodes : List (Nat × String)) (node : Nat × String)
    (h : node ∈ nodes) :
    BootAction.addAddress node.1 node.2 ∈ bootSuccessTrace nodes := by
  induction nodes with
  | nil => cases h
  | cons x rest ih =>
    rcases List.mem_cons.mp h with h1 | h1
    · subst h1
      simp [bootSuccessTrace, bootNodeTrace]
    · simp only [bootSuccessTrace, List.map_cons, List.flatten_cons, List.mem_append]
      right
      exact ih h1

/-- C5: `bootstrap_on_startup` processes the node list sequentially — per node dial_peer,
then add_address, then add_autonat_server — and invokes bootstrap only after all nodes
succeed; the first failure aborts the sequence and is returned (dial errors wrapped with
"Dialing Bootstrap peer failed."), so a dial failure on a later peer leaves the earlier
peers' add_address effects in the trace and bootstrap is never invoked. -/
theorem bootstrapOnStartup_spec (dial_peer add_address add_autonat_server :
    Nat → String → Except Report Unit) (bootstrap : Except Report Unit) :
    (∀ nodes : List (Nat × String),
      (∀ node ∈ nodes, dial_peer node.1 node.2 = .ok ()
        ∧ add_address node.1 node.2 = .ok () ∧ add_autonat_server node.1 node.2 = .ok ()) →
      bootstrapOnStartup dial_peer add_address add_autonat_server bootstrap nodes
        = (bootSuccessTrace nodes ++ [BootAction.bootstrap], bootstrap))
    ∧ (∀ (pre post : List (Nat × String)) (p : Nat) (a : String) (e : Report),
      (∀ node ∈ pre, dial_peer node.1 node.2 = .ok ()
        ∧ add_address node.1 node.2 = .ok () ∧ add_autonat_server node.1 node.2 = .ok ()) →
      dial_peer p a = .error e →
      bootstrapOnStartup dial_peer add_address add_autonat_server bootstrap
          (pre ++ (p, a) :: post)
        = (bootSuccessTrace pre, .error (.wrap "Dialing Bootstrap peer failed." e))
      ∧ BootAction.bootstrap ∉ bootSuccessTrace pre
      ∧ ∀ node ∈ pre, BootAction.addAddress node.1 node.2 ∈ bootSuccessTrace pre) := by
  constructor
  · exact fun nodes h =>
      bootstrapOnStartup_all_ok dial_peer add_address add_autonat_server bootstrap nodes h
  · intro pre post p a e h he
    exact ⟨bootstrapOnStartup_dial_failure dial_peer add_address add_autonat_server
        bootstrap pre post p a e h he,
      bootstrap_not_in_successTrace pre,
      fun node hn => addAddress_in_successTrace pre node hn⟩

/-- Witness for C5, the spec's bootstrap scenario: two nodes, the dial of peer 2 fails; the
result is the wrapped dial error, peer 1's operations (including add_address) are in the
trace, and bootstrap is absent from it. -/
theorem bootstrapOnStartup_spec_w :
    bootstrapOnStartup
        (fun peer _ => if peer = 2 then .error (.base "dial failed") else .ok ())
        (fun _ _ => .ok ()) (fun _ _ => .ok ()) (.ok ()) [(1, "a1"), (2, "a2")]
      = (bootSuccessTrace [(1, "a1")],
         .error (.wrap "Dialing Bootstrap peer failed." (.base "dial failed")))
    ∧ BootAction.bootstrap ∉ bootSuccessTrace [(1, "a1")]
    ∧ BootAction.addAddress 1 "a1" ∈ bootSuccessTrace [(1, "a1")] := by
  have h := (bootstrapOnStartup_spec
      (fun peer _ => if peer = 2 then .error (.base "dial failed") else .ok ())
      (fun _ _ => .ok ()) (fun _ _ => .ok ()) (.ok ())).2 [(1, "a1")] [] 2 "a2"
      (.base "dial failed")
      (by intro node hn; simp at hn; subst hn; exact ⟨rfl, rfl, rfl⟩) rfl
  exact ⟨h.1, h.2.1, h.2.2 (1, "a1") (by simp)⟩

theorem chunksOf_nil {α : Type _} (n : Nat) : chunksOf n ([] : List α) = [] := by
  rw [chunksOf.eq_def]
  simp

theorem chunksOf_cons_eq {α : Type _} (n : Nat) (hn : 0 < n) (l : List α) (hl : l ≠ []) :
    chunksOf n l = l.take n :: chunksOf n (l.drop n) := by
  rw [chunksOf.eq_def, dif_neg]
  rintro (h | h)
  · exact hl (List.isEmpty_iff.mp h)
  · omega

theorem chunksOf_flatten {α : Type _} (n : Nat) (hn : 0 < n) (l : List α) :
    (chunksOf n l).flatten = l := by
  have key : ∀ (m : Nat) (l : List α), l.length ≤ m → (chunksOf n l).flatten = l := by
    intro m
    induction m with
    | zero =>
      intro l hl
      have : l = [] := List.length_eq_zero.mp (Nat.le_zero.mp hl)
      subst this
      simp [chunksOf_nil]
    | succ m ih =>
      intro l hl
      rcases eq_or_ne l [] with hnil | hne
      · subst hnil
        simp [chunksOf_nil]
      · rw [chunksOf_cons_eq n hn l hne, List.flatten_cons,
          ih (l.drop n) (by
            have : 0 < l.length := List.length_pos.mpr hne
            simp only [List.length_drop]
            omega)]
        exact List.take_append_drop n l
  exact key l.length l le_rfl

theorem chunksOf_map_flatten {α β : Type _} (n : Nat) (hn : 0 < n) (f : α → β)
    (l : List α) : ((chunksOf n l).map fun c => c.map f).flatten = l.map f := by
  rw [← List.map_flatten, chunksOf_flatten n hn]

theorem zip_filter_map_self (F : Position → Option Cell) (ps : List Position) :
    ((((ps.map F).zip ps).filter fun x => x.1.isNone).map fun x => x.2)
      = ps.filter fun p => (F p).isNone := by
  induction ps with
  | nil => rfl
  | cons p ps ih => cases h : (F p).isNone <;> simp [h, ih]

theorem map_filterMap_id (F : Position → Option Cell) (ps : List Position) :
    (ps.map F).filterMap id = ps.filterMap F := by
  induction ps with
  | nil => rfl
  | cons p ps ih => cases h : F p <;> simp [h, ih]

theorem fetchCellsFromDht_eq (cell_ref : Nat → Position → String)
    (get_kad_record : List Nat → Except Report (List Nat)) (limit block : Nat)
    (positions : List Position) (hlimit : 0 < limit) :
    fetchCellsFromDht cell_ref get_kad_record limit block positions
      = (positions.filterMap fun p => (fetchCellFromDht cell_ref get_kad_record block p).1,
         positions.filter fun p =>
           ((fetchCellFromDht cell_ref get_kad_record block p).1).isNone) := by
  unfold fetchCellsFromDht
  rw [chunksOf_map_flatten limit hlimit
      (fun position => (fetchCellFromDht cell_ref get_kad_record block position).1) positions]
  simp only [zip_filter_map_self, map_filterMap_id]

theorem fetchCellFromDht_position (cell_ref : Nat → Position → String)
    (get_kad_record : List Nat → Except Report (List Nat)) (block : Nat) (p : Position)
    (c : Cell) (h : (fetchCellFromDht cell_ref get_kad_record block p).1 = some c) :
    c.position = p := by
  simp only [fetchCellFromDht] at h
  cases hg : get_kad_record (utf8Bytes (cell_ref block p)) with
  | ok value =>
    rw [hg] at h
    by_cases hl : value.length = commitmentPlusChunkSize
    · simp [hl] at h
      rw [← h]
    · simp [hl] at h
  | error e =>
    rw [hg] at h
    simp at h

theorem filterMap_position_perm (F : Position → Option Cell)
    (hF : ∀ p c, F p = some c → c.position = p) (ps : List Position) :
    ((ps.filterMap F).map Cell.position ++ ps.filter fun p => (F p).isNone).Perm ps
    ∧ (ps.filterMap F).length + (ps.filter fun p => (F p).isNone).length = ps.length := by
  induction ps with
  | nil => exact ⟨List.Perm.refl _, rfl⟩
  | cons p ps ih =>
    cases h : F p with
    | some c =>
      have hc : c.position = p := hF p c h
      refine ⟨?_, ?_⟩
      · have heq : ((p :: ps).filterMap F).map Cell.position
            ++ ((p :: ps).filter fun q => (F q).isNone)
            = p :: (((ps.filterMap F).map Cell.position)
                ++ (ps.filter fun q => (F q).isNone)) := by
          simp [List.filterMap_cons, h, hc]
        rw [heq]
        exact ih.1.cons p
      · have := ih.2
        simp [List.filterMap_cons, h]
        omega
    | none =>
      refine ⟨?_, ?_⟩
      · have heq : ((p :: ps).filterMap F).map Cell.position
            ++ ((p :: ps).filter fun q => (F q).isNone)
            = ((ps.filterMap F).map Cell.position)
              ++ p :: (ps.filter fun q => (F q).isNone) := by
          simp [List.filterMap_cons, h]
        rw [heq]
        exact List.perm_middle.trans (ih.1.cons p)
      · have := ih.2
        simp [List.filterMap_cons, h]
        omega

/-- C2: `fetch_cells_from_dht` partitions its input — the number of fetched cells plus the
number of unfetched positions equals the number of input positions, and the positions of
the fetched cells together with the unfetched positions equal the input positions as a
multiset. -/
theorem fetchCellsFromDht_partition (cell_ref : Nat → Position → String)
    (get_kad_record : List Nat → Except Report (List Nat)) (limit block : Nat)
    (positions : List Position) (hlimit : 0 < limit) :
    (fetchCellsFromDht cell_ref get_kad_record limit block positions).1.length
      + (fetchCellsFromDht cell_ref get_kad_record limit block positions).2.length
      = positions.length
    ∧ ((fetchCellsFromDht cell_ref get_kad_record limit block positions).1.map Cell.position
        ++ (fetchCellsFromDht cell_ref get_kad_record limit block positions).2).Perm
        positions := by
  rw [fetchCellsFromDht_eq cell_ref get_kad_record limit block positions hlimit]
  have h := filterMap_position_perm
    (fun p => (fetchCellFromDht cell_ref get_kad_record block p).1)
    (fun p c hc => fetchCellFromDht_position cell_ref get_kad_record block p c hc) positions
  exact ⟨h.2, h.1⟩

/-- Witness for C2 at three concrete positions (one of them missing from the DHT). -/
theorem fetchCellsFromDht_partition_w :
    (fetchCellsFromDht (fun _ p => if p.col = 1 then "a" else "b")
        (fun k => if k = utf8Bytes "a" then .error (.base "not found")
          else .ok (List.replicate 80 0)) 2 0 [⟨0, 0⟩, ⟨0, 1⟩, ⟨1, 0⟩]).1.length
      + (fetchCellsFromDht (fun _ p => if p.col = 1 then "a" else "b")
        (fun k => if k = utf8Bytes "a" then .error (.base "not found")
          else .ok (List.replicate 80 0)) 2 0 [⟨0, 0⟩, ⟨0, 1⟩, ⟨1, 0⟩]).2.length
      = [(⟨0, 0⟩ : Position), ⟨0, 1⟩, ⟨1, 0⟩].length
    ∧ ((fetchCellsFromDht (fun _ p => if p.col = 1 then "a" else "b")
        (fun k => if k = utf8Bytes "a" then .error (.base "not found")
          else .ok (List.replicate 80 0)) 2 0 [⟨0, 0⟩, ⟨0, 1⟩, ⟨1, 0⟩]).1.map Cell.position
        ++ (fetchCellsFromDht (fun _ p => if p.col = 1 then "a" else "b")
        (fun k => if k = utf8Bytes "a" then .error (.base "not found")
          else .ok (List.replicate 80 0)) 2 0 [⟨0, 0⟩, ⟨0, 1⟩, ⟨1, 0⟩]).2).Perm
        [⟨0, 0⟩, ⟨0, 1⟩, ⟨1, 0⟩] :=
  fetchCellsFromDht_partition (fun _ p => if p.col = 1 then "a" else "b")
    (fun k => if k = utf8Bytes "a" then .error (.base "not found")
      else .ok (List.replicate 80 0)) 2 0 [⟨0, 0⟩, ⟨0, 1⟩, ⟨1, 0⟩] (by decide)

/-- C6: a DHT GET whose record value is not exactly `COMMITMENT_SIZE + CHUNK_SIZE` (80)
bytes is treated the same as a missing record — `fetch_cell_from_dht` returns None after
one debug entry, and `fetch_cells_from_dht` reports the position as unfetched rather than
returning an error. -/
theorem malformed_value_treated_as_missing (cell_ref : Nat → Position → String)
    (get_kad_record : List Nat → Except Report (List Nat)) (limit block : Nat)
    (positions : List Position) (p : Position) (value : List Nat) (hlimit : 0 < limit)
    (hp : p ∈ positions)
    (hg : get_kad_record (utf8Bytes (cell_ref block p)) = .ok value)
    (hlen : value.length ≠ commitmentPlusChunkSize) :
    fetchCellFromDht cell_ref get_kad_record block p
      = (none, ["Cannot convert cell " ++ cell_ref block p ++ " into 80 bytes"])
    ∧ p ∈ (fetchCellsFromDht cell_ref get_kad_record limit block positions).2 := by
  have h1 : fetchCellFromDht cell_ref get_kad_record block p
      = (none, ["Cannot convert cell " ++ cell_ref block p ++ " into 80 bytes"]) := by
    simp [fetchCellFromDht, hg, hlen]
  refine ⟨h1, ?_⟩
  rw [fetchCellsFromDht_eq cell_ref get_kad_record limit block positions hlimit]
  simp only [List.mem_filter]
  exact ⟨hp, by rw [h1]; rfl⟩

/-- Witness for C6: a 1-byte record value yields the debug entry and an unfetched
position. -/
theorem malformed_value_treated_as_missing_w :
    fetchCellFromDht (fun _ _ => "r") (fun _ => .ok [0]) 0 ⟨0, 0⟩
      = (none, ["Cannot convert cell " ++ "r" ++ " into 80 bytes"])
    ∧ (⟨0, 0⟩ : Position)
        ∈ (fetchCellsFromDht (fun _ _ => "r") (fun _ => .ok [0]) 1 0 [⟨0, 0⟩]).2 :=
  malformed_value_treated_as_missing (fun _ _ => "r") (fun _ => .ok [0]) 1 0 [⟨0, 0⟩]
    ⟨0, 0⟩ [0] (by decide) (by simp) rfl (by decide)

theorem fetchRowFromDht_eq (row_ref : Nat → Nat → String)
    (get_kad_record : List Nat → Except Report (List Nat)) (block j : Nat) :
    fetchRowFromDht row_ref get_kad_record block j
      = ((get_kad_record (utf8Bytes (row_ref block j))).toOption).map fun v => (j, v) := by
  unfold fetchRowFromDht
  cases get_kad_record (utf8Bytes (row_ref block j)) <;> simp [Except.toOption]

theorem applyFetchedRows_append (rows : List (Option (List Nat)))
    (xs ys : List (Nat × List Nat)) :
    applyFetchedRows rows (xs ++ ys)
      = match applyFetchedRows rows xs with
        | some r => applyFetchedRows r ys
        | none => none := by
  induction xs generalizing rows with
  | nil => simp [applyFetchedRows]
  | cons q rest ih =>
    obtain ⟨i, v⟩ := q
    cases hw : vecWrite rows i (some v) with
    | some r => simp [applyFetchedRows, hw, ih]
    | none => simp [applyFetchedRows, hw]

theorem fetchRowsLoop_eq (fetch : Nat → Option (Nat × List Nat)) (cs : List (List Nat))
    (rows : List (Option (List Nat))) :
    fetchRowsLoop fetch cs rows = applyFetchedRows rows (cs.flatten.filterMap fetch) := by
  induction cs generalizing rows with
  | nil => simp [fetchRowsLoop, applyFetchedRows]
  | cons c rest ih =>
    simp only [fetchRowsLoop, List.flatten_cons, List.filterMap_append,
      applyFetchedRows_append]
    cases hw : applyFetchedRows rows (c.filterMap fetch) with
    | some r => simp [ih]
    | none => simp

theorem applyFetchedRows_spec (f : Nat → Option (List Nat))
    (pairs : List (Nat × List Nat)) (rows : List (Option (List Nat)))
    (hcoh : ∀ q ∈ pairs, f q.1 = some q.2) (hb : ∀ q ∈ pairs, q.1 < rows.length) :
    ∃ rows', applyFetchedRows rows pairs = some rows'
      ∧ rows'.length = rows.length
      ∧ ∀ j, rows'[j]? = if j ∈ pairs.map Prod.fst then some (f j) else rows[j]? := by
  induction pairs generalizing rows with
  | nil => exact ⟨rows, rfl, rfl, fun j => by simp⟩
  | cons q rest ih =>
    obtain ⟨i, v⟩ := q
    have hi : i < rows.length := hb (i, v) (by simp)
    have hfi : f i = some v := hcoh (i, v) (by simp)
    have hwrite : vecWrite rows i (some v) = some (rows.set i (some v)) := by
      simp [vecWrite, hi]
    obtain ⟨rows', h1, h2, h3⟩ := ih (rows.set i (some v))
      (fun q hq => hcoh q (by simp [hq]))
      (fun q hq => by
        have := hb q (by simp [hq])
        simpa using this)
    refine ⟨rows', ?_, by simpa using h2, ?_⟩
    · simp [applyFetchedRows, hwrite, h1]
    · intro j
      rw [h3 j]
      by_cases hjr : j ∈ rest.map Prod.fst
      · simp [hjr]
      · by_cases hji : j = i
        · subst hji
          simp [hjr, hfi, List.getElem?_set, hi]
        · have hij : ¬i = j := fun h => hji h.symm
          simp [hjr, hji, hij, List.getElem?_set]

/-- C10: if every requested row index is below `dims.extended_rows()`, the write
`rows[row_index]` in `fetch_rows_from_dht` is always in bounds (no panic), the returned
vector has length exactly `extended_rows`, and entries are `Some` exactly at requested
indexes whose fetch succeeded, `None` everywhere else. -/
theorem fetchRowsFromDht_spec (row_ref : Nat → Nat → String)
    (get_kad_record : List Nat → Except Report (List Nat))
    (limit block extended_rows : Nat) (row_indexes : List Nat) (hlimit : 0 < limit)
    (hbound : ∀ i ∈ row_indexes, i < extended_rows) :
    ∃ rows, fetchRowsFromDht row_ref get_kad_record limit block extended_rows row_indexes
        = some rows
      ∧ rows.length = extended_rows
      ∧ ∀ j < extended_rows, rows[j]?
          = some (if j ∈ row_indexes
              then (get_kad_record (utf8Bytes (row_ref block j))).toOption
              else none) := by
  have hcoh : ∀ q ∈ row_indexes.filterMap (fetchRowFromDht row_ref get_kad_record block),
      (fun j => (get_kad_record (utf8Bytes (row_ref block j))).toOption) q.1 = some q.2 := by
    intro q hq
    obtain ⟨i, _, hfi⟩ := List.mem_filterMap.mp hq
    rw [fetchRowFromDht_eq] at hfi
    cases hg : (get_kad_record (utf8Bytes (row_ref block i))).toOption with
    | some v =>
      rw [hg] at hfi
      simp at hfi
      rw [← hfi]
      simpa using hg
    | none =>
      rw [hg] at hfi
      simp at hfi
  have hb : ∀ q ∈ row_indexes.filterMap (fetchRowFromDht row_ref get_kad_record block),
      q.1 < (List.replicate extended_rows (none : Option (List Nat))).length := by
    intro q hq
    obtain ⟨i, hi, hfi⟩ := List.mem_filterMap.mp hq
    rw [fetchRowFromDht_eq] at hfi
    cases hg : (get_kad_record (utf8Bytes (row_ref block i))).toOption with
    | some v =>
      rw [hg] at hfi
      simp at hfi
      rw [← hfi]
      simpa using hbound i hi
    | none =>
      rw [hg] at hfi
      simp at hfi
  obtain ⟨rows, h1, h2, h3⟩ := applyFetchedRows_spec
    (fun j => (get_kad_record (utf8Bytes (row_ref block j))).toOption)
    (row_indexes.filterMap (fetchRowFromDht row_ref get_kad_record block))
    (List.replicate extended_rows none) hcoh hb
  have hmem : ∀ j,
      j ∈ (row_indexes.filterMap (fetchRowFromDht row_ref get_kad_record block)).map
        Prod.fst
      ↔ j ∈ row_indexes
        ∧ ((get_kad_record (utf8Bytes (row_ref block j))).toOption).isSome = true := by
    intro j
    constructor
    · intro hj
      obtain ⟨q, hq, hqj⟩ := List.mem_map.mp hj
      obtain ⟨i, hi, hfi⟩ := List.mem_filterMap.mp hq
      rw [fetchRowFromDht_eq] at hfi
      cases hg : (get_kad_record (utf8Bytes (row_ref block i))).toOption with
      | some v =>
        rw [hg] at hfi
        simp at hfi
        have : q.1 = i := by rw [← hfi]
        subst hqj
        rw [this] at *
        exact ⟨hi, by simp [hg, this]⟩
      | none =>
        rw [hg] at hfi
        simp at hfi
    · rintro ⟨hj, hsome⟩
      cases hg : (get_kad_record (utf8Bytes (row_ref block j))).toOption with
      | none => rw [hg] at hsome; simp at hsome
      | some v =>
        refine List.mem_map.mpr ⟨(j, v), List.mem_filterMap.mpr ⟨j, hj, ?_⟩, rfl⟩
        rw [fetchRowFromDht_eq, hg]
        rfl
  refine ⟨rows, ?_, by simpa using h2, ?_⟩
  · rw [fetchRowsFromDht, fetchRowsLoop_eq, chunksOf_flatten limit hlimit]
    exact h1
  · intro j hj
    rw [h3 j]
    by_cases hjm : j ∈ (row_indexes.filterMap
        (fetchRowFromDht row_ref get_kad_record block)).map Prod.fst
    · obtain ⟨hjr, hsome⟩ := (hmem j).mp hjm
      rw [if_pos hjm, if_pos hjr]
    · rw [if_neg hjm]
      by_cases hjr : j ∈ row_indexes
      · have hnone : (get_kad_record (utf8Bytes (row_ref block j))).toOption = none := by
          cases hg : (get_kad_record (utf8Bytes (row_ref block j))).toOption with
          | none => rfl
          | some v => exact absurd ((hmem j).mpr ⟨hjr, by simp [hg]⟩) hjm
        rw [if_pos hjr, hnone]
        simp [List.getElem?_replicate, hj]
      · rw [if_neg hjr]
        simp [List.getElem?_replicate, hj]

/-- Witness for C10: two extended rows, one requested and fetched. -/
theorem fetchRowsFromDht_spec_w :
    ∃ rows, fetchRowsFromDht (fun _ _ => "rr") (fun _ => .ok [9]) 1 0 2 [1] = some rows
      ∧ rows.length = 2
      ∧ ∀ j < 2, rows[j]?
          = some (if j ∈ [1]
              then (Except.ok [9] : Except Report (List Nat)).toOption
              else none) :=
  fetchRowsFromDht_spec (fun _ _ => "rr") (fun _ => .ok [9]) 1 0 2 [1] (by decide)
    (by decide)

end AvailLight
